import Mathlib

/-!
Verification of the batched-gauge collector of warpcomdev/pgexport
(src/metrics/gauge.go), shallowly embedded in Lean.

Modelling conventions:
* A Go `[]sample` slice is `Option (List sample)`: `none` is a nil slice,
  `some l` a non-nil slice (possibly empty, as produced by `make`).
  Go `append` on a nil slice yields a non-nil slice.
* Timestamps (`ts.UnixMilli()`) are `Int` milliseconds; `Begin` receives the
  already-converted value.
* Go indexing `labelValues[label_idx]` panics when out of range; the emission
  functions therefore return `Option`, with `none` modelling a run-time panic.
* The mutex makes `Commit` and the snapshot in `Collect` atomic sections;
  concurrency is modelled as arbitrary interleavings of atomic operations
  (`Op` traces), and `Collect`/`Describe` as pure observations of the state.
-/

namespace PgExport

/-- dto.LabelPair: one emitted label name/value pair. -/
structure LabelPair where
  name : String
  value : String
deriving Repr, DecidableEq

/-- sample: a single metric in the batch (labelValues, value). -/
structure sample where
  labelValues : List String
  value : Float
deriving Repr

/-- batch: metrics identified by the same timestamp.  `samples = none`
models the nil Go slice, `some l` a non-nil slice. -/
structure batch where
  ts : Int
  samples : Option (List sample)
deriving Repr

/-- prometheus.Desc as built by NewDesc(name, help, labels, nil). -/
structure Desc where
  fqName : String
  help : String
  variableLabels : List String
deriving Repr, DecidableEq

/-- GaugeBatch: a vector of gauges with a common timestamp.  The mutex is
elided; its effect is captured by treating each operation as atomic. -/
structure GaugeBatch where
  labelNames : List String
  descriptor : Desc
  last : batch
  current : batch
deriving Repr

/-- A metric instance as emitted on the channel by Collect: the gaugeProxy's
timestamp pointer target, label pairs and gauge value. -/
structure Metric where
  ts : Int
  label : List LabelPair
  value : Float
deriving Repr

/-- Begin a new batch: `c.current.ts = ts.UnixMilli();
c.current.samples = make([]sample, 0, 16)` (a non-nil empty slice). -/
def GaugeBatch.begin (c : GaugeBatch) (ts : Int) : GaugeBatch :=
  { c with current := { ts := ts, samples := some [] } }

/-- Commit the current batch: `c.last = c.current; c.current.samples = nil`
(the current timestamp is NOT reset). -/
def GaugeBatch.commit (c : GaugeBatch) : GaugeBatch :=
  { c with last := c.current, current := { c.current with samples := none } }

/-- Set a value in the batch: `c.current.samples = append(c.current.samples,
sample{labelValues, value})`; appending to a nil slice starts a fresh
non-nil slice. -/
def GaugeBatch.set (c : GaugeBatch) (labelValues : List String) (value : Float) :
    GaugeBatch :=
  { c with current := { c.current with
      samples := some (c.current.samples.getD [] ++
        [{ labelValues := labelValues, value := value }]) } }

/-- The inner loop of Collect over `label_idx in range(labelNames)`:
`labelNames[label_idx]` paired with `labelValues[label_idx]`.  Indexing past
the end of `labelValues` is a Go panic, modelled as `none`; extra label
values beyond `labelNames` are never read. -/
def zipLabels : List String → List String → Option (List LabelPair)
  | [], _ => some []
  | n :: ns, v :: vs => (zipLabels ns vs).map (fun rest => ⟨n, v⟩ :: rest)
  | _ :: _, [] => none

/-- The outer loop of Collect over `metric_idx in range(snap.samples)`: one
gaugeProxy per sample, all sharing the snapshot timestamp. -/
def emitSamples (labelNames : List String) (ts : Int) :
    List sample → Option (List Metric)
  | [] => some []
  | s :: rest =>
    match zipLabels labelNames s.labelValues with
    | none => none
    | some lp =>
      match emitSamples labelNames ts rest with
      | none => none
      | some ms => some ({ ts := ts, label := lp, value := s.value } :: ms)

/-- Collect: snapshot `c.last` under the lock, then (outside the lock) emit
one metric per sample if the snapshot's samples slice is non-nil. -/
def GaugeBatch.collect (c : GaugeBatch) : Option (List Metric) :=
  match c.last.samples with
  | none => some []
  | some ss => emitSamples c.labelNames c.last.ts ss

/-- Describe: sends the fixed descriptor on the channel. -/
def GaugeBatch.describe (c : GaugeBatch) : List Desc :=
  [c.descriptor]

/-- NewGaugeBatch: both batches start with zero timestamps and nil sample
slices. -/
def NewGaugeBatch (name : String) (help : String) (labels : List String) :
    GaugeBatch :=
  { labelNames := labels
    descriptor := { fqName := name, help := help, variableLabels := labels }
    last := { ts := 0, samples := none }
    current := { ts := 0, samples := none } }

/-- Collect with an explicit fallible downstream sink, threading the
collector state: the emission path reads `c.last` and `c.labelNames` and
writes nothing back.  The result is `none` on a Go panic, otherwise the
first sink error or success. -/
def emitInto (labelNames : List String) (ts : Int)
    (sink : Metric → Except String Unit) :
    List sample → Option (Except String Unit)
  | [] => some (Except.ok ())
  | s :: rest =>
    match zipLabels labelNames s.labelValues with
    | none => none
    | some lp =>
      match sink { ts := ts, label := lp, value := s.value } with
      | Except.error e => some (Except.error e)
      | Except.ok _ => emitInto labelNames ts sink rest

/-- The full emission path as a state transformer: Collect never assigns to
any field of the collector, so the returned state is the input state. -/
def GaugeBatch.collectInto (c : GaugeBatch) (sink : Metric → Except String Unit) :
    GaugeBatch × Option (Except String Unit) :=
  match c.last.samples with
  | none => (c, some (Except.ok ()))
  | some ss => (c, emitInto c.labelNames c.last.ts sink ss)

/-- Producer-side operations, each atomic with respect to the reader. -/
inductive Op where
  | begin (ts : Int)
  | set (labelValues : List String) (value : Float)
  | commit
deriving Repr

/-- Apply one producer operation. -/
def applyOp (c : GaugeBatch) : Op → GaugeBatch
  | Op.begin ts => c.begin ts
  | Op.set lv v => c.set lv v
  | Op.commit => c.commit

/-- Apply a trace of producer operations, left to right. -/
def applyOps (c : GaugeBatch) (ops : List Op) : GaugeBatch :=
  ops.foldl applyOp c

/-- A sequence of Set calls, in order. -/
def GaugeBatch.setAll (c : GaugeBatch) (ps : List (List String × Float)) : GaugeBatch :=
  ps.foldl (fun acc p => acc.set p.1 p.2) c

/-! ### Basic field lemmas -/

@[simp] lemma begin_labelNames (c : GaugeBatch) (ts : Int) :
    (c.begin ts).labelNames = c.labelNames := rfl

@[simp] lemma begin_descriptor (c : GaugeBatch) (ts : Int) :
    (c.begin ts).descriptor = c.descriptor := rfl

@[simp] lemma begin_last (c : GaugeBatch) (ts : Int) :
    (c.begin ts).last = c.last := rfl

@[simp] lemma begin_current (c : GaugeBatch) (ts : Int) :
    (c.begin ts).current = { ts := ts, samples := some [] } := rfl

@[simp] lemma set_labelNames (c : GaugeBatch) (lv : List String) (v : Float) :
    (c.set lv v).labelNames = c.labelNames := rfl

@[simp] lemma set_descriptor (c : GaugeBatch) (lv : List String) (v : Float) :
    (c.set lv v).descriptor = c.descriptor := rfl

@[simp] lemma set_last (c : GaugeBatch) (lv : List String) (v : Float) :
    (c.set lv v).last = c.last := rfl

@[simp] lemma set_current_ts (c : GaugeBatch) (lv : List String) (v : Float) :
    (c.set lv v).current.ts = c.current.ts := rfl

@[simp] lemma set_current_samples (c : GaugeBatch) (lv : List String) (v : Float) :
    (c.set lv v).current.samples =
      some (c.current.samples.getD [] ++ [{ labelValues := lv, value := v }]) := rfl

@[simp] lemma commit_labelNames (c : GaugeBatch) :
    c.commit.labelNames = c.labelNames := rfl

@[simp] lemma commit_descriptor (c : GaugeBatch) :
    c.commit.descriptor = c.descriptor := rfl

@[simp] lemma commit_last (c : GaugeBatch) :
    c.commit.last = c.current := rfl

@[simp] lemma commit_current_ts (c : GaugeBatch) :
    c.commit.current.ts = c.current.ts := rfl

@[simp] lemma commit_current_samples (c : GaugeBatch) :
    c.commit.current.samples = none := rfl

@[simp] lemma applyOps_nil (c : GaugeBatch) : applyOps c [] = c := rfl

@[simp] lemma applyOps_cons (c : GaugeBatch) (op : Op) (ops : List Op) :
    applyOps c (op :: ops) = applyOps (applyOp c op) ops := rfl

lemma applyOps_append (c : GaugeBatch) (l₁ l₂ : List Op) :
    applyOps c (l₁ ++ l₂) = applyOps (applyOps c l₁) l₂ :=
  List.foldl_append ..

@[simp] lemma setAll_nil (c : GaugeBatch) : GaugeBatch.setAll c [] = c := rfl

@[simp] lemma setAll_cons (c : GaugeBatch) (p : List String × Float)
    (ps : List (List String × Float)) :
    GaugeBatch.setAll c (p :: ps) = GaugeBatch.setAll (c.set p.1 p.2) ps := rfl

/-! ### State of the collector after a `Begin; Set*` sequence -/

lemma setAll_labelNames (c : GaugeBatch) (ps : List (List String × Float)) :
    (GaugeBatch.setAll c ps).labelNames = c.labelNames := by
  induction ps generalizing c with
  | nil => rfl
  | cons p ps ih => simp [ih]

lemma setAll_descriptor (c : GaugeBatch) (ps : List (List String × Float)) :
    (GaugeBatch.setAll c ps).descriptor = c.descriptor := by
  induction ps generalizing c with
  | nil => rfl
  | cons p ps ih => simp [ih]

lemma setAll_last (c : GaugeBatch) (ps : List (List String × Float)) :
    (GaugeBatch.setAll c ps).last = c.last := by
  induction ps generalizing c with
  | nil => rfl
  | cons p ps ih => simp [ih]

lemma setAll_current_ts (c : GaugeBatch) (ps : List (List String × Float)) :
    (GaugeBatch.setAll c ps).current.ts = c.current.ts := by
  induction ps generalizing c with
  | nil => rfl
  | cons p ps ih => simp [ih]

/-- Converting one Set argument pair into the stored sample. -/
def toSample (p : List String × Float) : sample :=
  { labelValues := p.1, value := p.2 }

lemma setAll_current_samples (c : GaugeBatch) (ps : List (List String × Float))
    (l : List sample) (h : c.current.samples = some l) :
    (GaugeBatch.setAll c ps).current.samples = some (l ++ ps.map toSample) := by
  induction ps generalizing c l with
  | nil => simpa using h
  | cons p ps ih =>
    rw [setAll_cons]
    rw [ih (c.set p.1 p.2) (l ++ [toSample p]) (by simp [h, toSample])]
    simp

/-! ### Emission lemmas -/

lemma zipLabels_of_le (names vals : List String)
    (h : names.length ≤ vals.length) :
    zipLabels names vals =
      some (List.zipWith (fun n v => LabelPair.mk n v) names vals) := by
  induction names generalizing vals with
  | nil => simp [zipLabels]
  | cons n ns ih =>
    cases vals with
    | nil => simp at h
    | cons v vs =>
      simp only [List.length_cons, Nat.add_le_add_iff_right] at h
      simp [zipLabels, ih vs h]

lemma zipLabels_eq_none_iff (names vals : List String) :
    zipLabels names vals = none ↔ vals.length < names.length := by
  induction names generalizing vals with
  | nil => simp [zipLabels]
  | cons n ns ih =>
    cases vals with
    | nil => simp [zipLabels]
    | cons v vs =>
      simp [zipLabels, ih vs, Option.map_eq_none', Nat.succ_lt_succ_iff]

lemma emitSamples_of_le (names : List String) (ts : Int) (ss : List sample)
    (h : ∀ s ∈ ss, names.length ≤ s.labelValues.length) :
    emitSamples names ts ss =
      some (ss.map (fun s =>
        { ts := ts
          label := List.zipWith (fun n v => LabelPair.mk n v) names s.labelValues
          value := s.value })) := by
  induction ss with
  | nil => simp [emitSamples]
  | cons s rest ih =>
    have hs : names.length ≤ s.labelValues.length := h s (by simp)
    have hrest : ∀ t ∈ rest, names.length ≤ t.labelValues.length :=
      fun t ht => h t (by simp [ht])
    simp [emitSamples, zipLabels_of_le names s.labelValues hs, ih hrest]

lemma emitSamples_none_of_bad (names : List String) (ts : Int)
    (ss : List sample) (h : ∃ s ∈ ss, s.labelValues.length < names.length) :
    emitSamples names ts ss = none := by
  induction ss with
  | nil => simp at h
  | cons s rest ih =>
    obtain ⟨t, ht, hlt⟩ := h
    rcases List.mem_cons.1 ht with rfl | htr
    · have hz : zipLabels names t.labelValues = none :=
        (zipLabels_eq_none_iff names t.labelValues).2 hlt
      simp [emitSamples, hz]
    · have hrest : emitSamples names ts rest = none := ih ⟨t, htr, hlt⟩
      cases hz : zipLabels names s.labelValues with
      | none => simp [emitSamples, hz]
      | some lp => simp [emitSamples, hz, hrest]

lemma emitSamples_eq_none_iff (names : List String) (ts : Int)
    (ss : List sample) :
    emitSamples names ts ss = none ↔
      ∃ s ∈ ss, s.labelValues.length < names.length := by
  constructor
  · intro h
    by_contra hne
    push_neg at hne
    have hall : ∀ s ∈ ss, names.length ≤ s.labelValues.length :=
      fun s hs => Nat.le_of_not_lt (by simpa using hne s hs)
    rw [emitSamples_of_le names ts ss hall] at h
    exact Option.noConfusion h
  · exact emitSamples_none_of_bad names ts ss

/-! ### The last batch is only changed by Commit -/

lemma applyOps_last_of_no_commit (c : GaugeBatch) (ops : List Op)
    (h : Op.commit ∉ ops) : (applyOps c ops).last = c.last := by
  induction ops generalizing c with
  | nil => rfl
  | cons op ops ih =>
    have hop : op ≠ Op.commit := fun he => h (by simp [he])
    have htail : Op.commit ∉ ops := fun he => h (by simp [he])
    cases op with
    | begin ts => simpa [applyOp] using ih (c.begin ts) htail
    | set lv v => simpa [applyOp] using ih (c.set lv v) htail
    | commit => exact absurd rfl hop

attribute [ext] batch GaugeBatch

lemma collect_eq_of_samples (c : GaugeBatch) (l : List sample)
    (h : c.last.samples = some l) :
    c.collect = emitSamples c.labelNames c.last.ts l := by
  unfold GaugeBatch.collect
  rw [h]

lemma collect_eq_nil_of_none (c : GaugeBatch) (h : c.last.samples = none) :
    c.collect = some [] := by
  unfold GaugeBatch.collect
  rw [h]

/-- C1: for every sequence `Begin; Set × N; Commit` (the N `Set` calls
honouring the label-schema arity), a `Collect` performed after the `Commit`
emits exactly the N metric instances, in `Set` call order, each labelled by
the positional zip of the schema with its label values and each carrying
the single timestamp given to that batch's `Begin`. -/
theorem c1_collect_after_commit (c : GaugeBatch) (ts : Int)
    (ps : List (List String × Float))
    (h : ∀ p ∈ ps, p.1.length = c.labelNames.length) :
    (((c.begin ts).setAll ps).commit).collect =
      some (ps.map (fun p =>
        { ts := ts
          label := List.zipWith (fun n v => LabelPair.mk n v) c.labelNames p.1
          value := p.2 })) := by
  have hsam : ((c.begin ts).setAll ps).current.samples = some (ps.map toSample) := by
    simpa using setAll_current_samples (c.begin ts) ps [] (by simp)
  have hlast : ((((c.begin ts).setAll ps).commit)).last.samples = some (ps.map toSample) := by
    rw [commit_last]
    exact hsam
  rw [collect_eq_of_samples _ _ hlast]
  have hn : ((((c.begin ts).setAll ps).commit)).labelNames = c.labelNames := by
    simp [setAll_labelNames]
  have ht : ((((c.begin ts).setAll ps).commit)).last.ts = ts := by
    rw [commit_last, setAll_current_ts]
    rfl
  rw [hn, ht]
  have hfit : ∀ s ∈ ps.map toSample, c.labelNames.length ≤ s.labelValues.length := by
    intro s hs
    obtain ⟨p, hp, rfl⟩ := List.mem_map.1 hs
    exact le_of_eq (h p hp).symm
  rw [emitSamples_of_le c.labelNames ts (ps.map toSample) hfit]
  simp [toSample]

/-- C1 witness: a concrete two-`Set` cycle on a single-label collector. -/
theorem c1_collect_after_commit_witness :
    (∀ p ∈ ([(["a"], (10.0 : Float)), (["b"], (20.0 : Float))] :
        List (List String × Float)),
      p.1.length = (NewGaugeBatch "m" "h" ["db"]).labelNames.length) ∧
    ((((NewGaugeBatch "m" "h" ["db"]).begin 1000).setAll
        [(["a"], 10.0), (["b"], 20.0)]).commit).collect =
      some (([(["a"], (10.0 : Float)), (["b"], (20.0 : Float))] :
          List (List String × Float)).map (fun p =>
        { ts := 1000
          label := List.zipWith (fun n v => LabelPair.mk n v)
            (NewGaugeBatch "m" "h" ["db"]).labelNames p.1
          value := p.2 })) :=
  ⟨by simp [NewGaugeBatch], c1_collect_after_commit (NewGaugeBatch "m" "h" ["db"]) 1000
    [(["a"], 10.0), (["b"], 20.0)] (by simp [NewGaugeBatch])⟩

/-- C7: a second `Begin` without an intervening `Commit` discards every
sample accumulated since the first `Begin`: the resulting collector state
equals the one obtained by the second `Begin` alone. -/
theorem c7_double_begin_discards (c : GaugeBatch) (ts1 ts2 : Int)
    (ps : List (List String × Float)) :
    ((c.begin ts1).setAll ps).begin ts2 = c.begin ts2 := by
  apply GaugeBatch.ext <;>
    simp [setAll_labelNames, setAll_descriptor, setAll_last]

/-- C9: a `Set` after a `Commit` without an intervening `Begin` appends to
the fresh (nil) sample slice left by `Commit`; the next `Commit` installs a
batch holding exactly that sample and the timestamp of the most recent
`Begin`, which `Commit` does not reset. -/
theorem c9_set_after_commit (c : GaugeBatch) (ts : Int)
    (ps : List (List String × Float)) (lv : List String) (v : Float) :
    ((((((c.begin ts).setAll ps).commit).set lv v)).commit).last =
      { ts := ts, samples := some [{ labelValues := lv, value := v }] } := by
  rw [commit_last]
  apply batch.ext
  · rw [set_current_ts, commit_current_ts, setAll_current_ts]
    rfl
  · simp

/-- C10: a second `Commit` with no intervening `Begin` or `Set` installs as
`last` a batch with a nil sample slice and the most recent `Begin`'s
timestamp, so the following `Collect` emits zero metric instances. -/
theorem c10_double_commit_erases (c : GaugeBatch) (ts : Int)
    (ps : List (List String × Float)) :
    ((((c.begin ts).setAll ps).commit).commit).last =
        { ts := ts, samples := none } ∧
      ((((c.begin ts).setAll ps).commit).commit).collect = some [] := by
  have hlast : ((((c.begin ts).setAll ps).commit).commit).last =
      { ts := ts, samples := none } := by
    rw [commit_last]
    apply batch.ext
    · rw [commit_current_ts, setAll_current_ts]
      rfl
    · simp
  refine ⟨hlast, collect_eq_nil_of_none _ ?_⟩
  rw [hlast]

/-- C2: on a freshly constructed collector, any trace of producer
operations that contains no `Commit` leaves `last` as the initial nil
batch, so `Collect` emits zero metric instances (and, the emission being
total, raises no error). -/
theorem c2_collect_before_first_commit (n h' : String) (labels : List String)
    (ops : List Op) (hc : Op.commit ∉ ops) :
    (applyOps (NewGaugeBatch n h' labels) ops).collect = some [] := by
  apply collect_eq_nil_of_none
  rw [applyOps_last_of_no_commit (NewGaugeBatch n h' labels) ops hc]
  rfl

/-- C2 witness: a `Begin` and a `Set` with no `Commit` on a fresh
collector. -/
theorem c2_collect_before_first_commit_witness :
    Op.commit ∉ [Op.begin 5, Op.set ["x"] (0.0 : Float)] ∧
    (applyOps (NewGaugeBatch "m" "h" ["db"])
      [Op.begin 5, Op.set ["x"] (0.0 : Float)]).collect = some [] :=
  ⟨by simp, c2_collect_before_first_commit "m" "h" ["db"]
    [Op.begin 5, Op.set ["x"] (0.0 : Float)] (by simp)⟩

/-- C4: a batch installed as `last` by `Commit` is not mutated by later
operations: any commit-free trace leaves `last` exactly the installed
batch (timestamp and sample sequence included); `Commit` itself resets the
producer's sample slice to nil, so a later `Set` builds a fresh one-sample
list instead of extending the installed batch's list. -/
theorem c4_committed_batch_immutable (c : GaugeBatch) (ops : List Op)
    (lv : List String) (v : Float) (hc : Op.commit ∉ ops) :
    (applyOps c.commit ops).last = c.current ∧
      c.commit.current.samples = none ∧
      ((c.commit).set lv v).current.samples =
        some [{ labelValues := lv, value := v }] := by
  refine ⟨?_, rfl, by simp⟩
  rw [applyOps_last_of_no_commit c.commit ops hc, commit_last]

/-- C4 witness: after a commit, a `Begin` and a `Set` leave the installed
batch untouched. -/
theorem c4_committed_batch_immutable_witness :
    Op.commit ∉ [Op.begin 7, Op.set ["y"] (1.0 : Float)] ∧
    ((applyOps ((NewGaugeBatch "m" "h" ["db"]).commit)
          [Op.begin 7, Op.set ["y"] (1.0 : Float)]).last =
        (NewGaugeBatch "m" "h" ["db"]).current ∧
      ((NewGaugeBatch "m" "h" ["db"]).commit).current.samples = none ∧
      (((NewGaugeBatch "m" "h" ["db"]).commit).set ["x"] (0.0 : Float)).current.samples =
        some [{ labelValues := ["x"], value := (0.0 : Float) }]) :=
  ⟨by simp, c4_committed_batch_immutable (NewGaugeBatch "m" "h" ["db"])
    [Op.begin 7, Op.set ["y"] (1.0 : Float)] ["x"] (0.0 : Float) (by simp)⟩

/-- C8: the emission path never modifies collector state: for every
collector and every downstream sink (including one that rejects writes
with an error, and including the panic case), the collector returned by
the emission path is exactly the input collector, so `last`, `current`,
the label schema and the descriptor are all unchanged. -/
theorem c8_collect_preserves_state (c : GaugeBatch)
    (sink : Metric → Except String Unit) :
    (c.collectInto sink).1 = c := by
  cases hc : c.last.samples <;> simp [GaugeBatch.collectInto, hc]

/-- C3: with each lock-protected operation atomic, a reader snapshotting
`last` after an arbitrary interleaving of producer operations observes
either the initially committed batch or the batch as of some `Commit` in
the trace — never a state produced mid-build, since only `Commit` changes
`last`. -/
theorem c3_reader_sees_committed (c0 : GaugeBatch) (trace : List Op) :
    (applyOps c0 trace).last = c0.last ∨
      ∃ p s, trace = p ++ Op.commit :: s ∧
        (applyOps c0 trace).last = (applyOps c0 (p ++ [Op.commit])).last := by
  induction trace generalizing c0 with
  | nil => exact Or.inl rfl
  | cons op tr ih =>
    rcases ih (applyOp c0 op) with h | ⟨p, s, htr, h⟩
    · cases op with
      | begin ts => exact Or.inl h
      | set lv v => exact Or.inl h
      | commit => exact Or.inr ⟨[], tr, rfl, h⟩
    · subst htr
      exact Or.inr ⟨op :: p, s, rfl, h⟩

/-- C5 counterexample: a committed sample with fewer label values than the
schema has label names makes `Collect` panic (index out of range, modelled
as `none`) — emission does crash rather than merely misalign. -/
theorem c5_short_labels_crash_counterexample :
    ((((NewGaugeBatch "m" "h" ["a", "b"]).begin 0).set ["x"] (0.0 : Float)).commit).collect
        = none ∧
      ∃ ss, ((((NewGaugeBatch "m" "h" ["a", "b"]).begin 0).set ["x"] (0.0 : Float)).commit).last.samples
          = some ss ∧
        ∃ s ∈ ss, s.labelValues.length ≠
          ((((NewGaugeBatch "m" "h" ["a", "b"]).begin 0).set ["x"] (0.0 : Float)).commit).labelNames.length :=
  ⟨rfl, [{ labelValues := ["x"], value := (0.0 : Float) }], rfl,
    { labelValues := ["x"], value := (0.0 : Float) }, by simp, by decide⟩

/-- C5 (amended): for a committed batch, emission crashes (a run-time
index-out-of-range panic) exactly when some sample's labelValues is
shorter than the label-name count; samples with extra label values do not
crash — the positional zip simply never reads past the label names. -/
theorem c5_collect_crash_iff_short (c : GaugeBatch) (ss : List sample)
    (h : c.last.samples = some ss) :
    c.collect = none ↔ ∃ s ∈ ss, s.labelValues.length < c.labelNames.length := by
  rw [collect_eq_of_samples c ss h]
  exact emitSamples_eq_none_iff c.labelNames c.last.ts ss

/-- C5 witness: the crash criterion applied to a committed batch holding
one over-long sample, which emits without crashing. -/
theorem c5_collect_crash_iff_short_witness :
    ((((NewGaugeBatch "m" "h" ["a"]).begin 0).set ["x", "y"] (0.0 : Float)).commit).last.samples
        = some [{ labelValues := ["x", "y"], value := (0.0 : Float) }] ∧
      (((((NewGaugeBatch "m" "h" ["a"]).begin 0).set ["x", "y"] (0.0 : Float)).commit).collect = none ↔
        ∃ s ∈ [({ labelValues := ["x", "y"], value := (0.0 : Float) } : sample)],
          s.labelValues.length <
            ((((NewGaugeBatch "m" "h" ["a"]).begin 0).set ["x", "y"] (0.0 : Float)).commit).labelNames.length) :=
  ⟨rfl, c5_collect_crash_iff_short
    ((((NewGaugeBatch "m" "h" ["a"]).begin 0).set ["x", "y"] (0.0 : Float)).commit)
    [{ labelValues := ["x", "y"], value := (0.0 : Float) }] rfl⟩

/-- C6 counterexample: two consecutive cycles committing identical samples
whose `Begin` calls receive the same millisecond timestamp emit the SAME
timestamp twice — the code derives the batch timestamp solely from the
value passed to `Begin`, so distinctness is not guaranteed for every pair
of consecutive cycles. -/
theorem c6_same_begin_ts_counterexample :
    ((((NewGaugeBatch "m" "h" ["db"]).begin 1000).set ["a"] (0.0 : Float)).commit).collect
        = some [{ ts := 1000, label := [{ name := "db", value := "a" }], value := (0.0 : Float) }] ∧
      ((((((((NewGaugeBatch "m" "h" ["db"]).begin 1000).set ["a"] (0.0 : Float)).commit).begin
            1000).set ["a"] (0.0 : Float)).commit)).collect
        = some [{ ts := 1000, label := [{ name := "db", value := "a" }], value := (0.0 : Float) }] :=
  ⟨rfl, rfl⟩

/-- C6 (amended): the batch timestamp emitted after each `Commit` is
exactly the timestamp passed to that cycle's `Begin`, independent of the
sample values; two consecutive cycles committing the identical samples
therefore emit distinct timestamps precisely when their `Begin`
timestamps differ. -/
theorem c6_distinct_ts_iff_begin_differs (c : GaugeBatch) (ts1 ts2 : Int)
    (ps : List (List String × Float)) (h : ts1 ≠ ts2) :
    (((c.begin ts1).setAll ps).commit).last.ts = ts1 ∧
      ((((((c.begin ts1).setAll ps).commit).begin ts2).setAll ps).commit).last.ts = ts2 ∧
      (((c.begin ts1).setAll ps).commit).last.ts ≠
        ((((((c.begin ts1).setAll ps).commit).begin ts2).setAll ps).commit).last.ts := by
  have h1 : (((c.begin ts1).setAll ps).commit).last.ts = ts1 := by
    rw [commit_last, setAll_current_ts]
    rfl
  have h2 : ((((((c.begin ts1).setAll ps).commit).begin ts2).setAll ps).commit).last.ts = ts2 := by
    rw [commit_last, setAll_current_ts]
    rfl
  refine ⟨h1, h2, ?_⟩
  rw [h1, h2]
  exact h

/-- C6 witness: two cycles with identical samples at 1000ms and 2000ms. -/
theorem c6_distinct_ts_iff_begin_differs_witness :
    (1000 : Int) ≠ 2000 ∧
      ((((NewGaugeBatch "m" "h" ["db"]).begin 1000).setAll [(["a"], (0.0 : Float))]).commit).last.ts = 1000 ∧
      ((((((((NewGaugeBatch "m" "h" ["db"]).begin 1000).setAll [(["a"], (0.0 : Float))]).commit).begin
          2000).setAll [(["a"], (0.0 : Float))]).commit)).last.ts = 2000 ∧
      ((((NewGaugeBatch "m" "h" ["db"]).begin 1000).setAll [(["a"], (0.0 : Float))]).commit).last.ts ≠
        ((((((((NewGaugeBatch "m" "h" ["db"]).begin 1000).setAll [(["a"], (0.0 : Float))]).commit).begin
            2000).setAll [(["a"], (0.0 : Float))]).commit)).last.ts :=
  ⟨by decide, c6_distinct_ts_iff_begin_differs (NewGaugeBatch "m" "h" ["db"])
    1000 2000 [(["a"], (0.0 : Float))] (by decide)⟩

end PgExport
